import Mathlib

/-!
Verification of the sign-portal server (`src/server.py`).

The Python source is shallowly embedded below.  Pure helpers of the server
become Lean functions; the SQLite `users` table becomes a list of `User`
records threaded through the handler; the fresh 16 random salt bytes drawn by
`secrets.token_bytes(16)` become an explicit `entropy : Fin 16 → Nat`
parameter; the current UTC timestamp becomes an explicit `now : String`
parameter; file-system access of the static handler becomes an explicit
`fs` lookup function.  Machine words in SHA-256 are `Nat` with explicit
`% 2 ^ 32` where overflow matters; bytes are `Nat` values below 256.

Modelling notes (deviations that no claim depends on):
* `str.strip` / `str.lower` are modelled on the ASCII range (the Unicode
  whitespace and case tables are not reproduced);
* percent-decoding in `unquote_plus` maps a single `%XX` escape to the
  character with that code point (Python additionally reassembles multi-byte
  UTF-8 escape sequences; the claims only use unescaped ASCII bodies);
* the JSON string escaper writes one `\uXXXX` escape per code point.
-/

/-! ## Basic character and string utilities -/

/-- ASCII whitespace characters stripped by Python `str.strip`. -/
def isPySpace (c : Char) : Bool :=
  c = ' ' || c = '\t' || c = '\n' || c = '\x0d' || c = '\x0b' || c = '\x0c'

/-- `str.strip` on a character list: drop whitespace at both ends. -/
def pyStripL (l : List Char) : List Char :=
  ((l.dropWhile isPySpace).reverse.dropWhile isPySpace).reverse

/-- Model of Python `str.strip()` (ASCII whitespace). -/
def pyStrip (s : String) : String :=
  String.mk (pyStripL s.data)

/-- Lowercase one ASCII letter, leave every other character unchanged. -/
def asciiLowerChar (c : Char) : Char :=
  if 'A' ≤ c ∧ c ≤ 'Z' then Char.ofNat (c.toNat + 32) else c

/-- Model of Python `str.lower()` restricted to ASCII case mapping. -/
def pyLower (s : String) : String :=
  String.mk (s.data.map asciiLowerChar)

/-- Two strings are equal up to ASCII case differences. -/
def asciiCaseEq (a b : String) : Prop :=
  pyLower a = pyLower b

instance asciiCaseEqDec (a b : String) : Decidable (asciiCaseEq a b) :=
  inferInstanceAs (Decidable (pyLower a = pyLower b))

/-- The sixteen lowercase hexadecimal digit characters. -/
def hexCharsL : List Char :=
  "0123456789abcdef".data

/-- Lowercase hexadecimal digit for a value below 16. -/
def hexDigitChar (n : Nat) : Char :=
  hexCharsL.getD n '0'

/-- Uppercase hexadecimal digit for a value below 16 (used by `quote_plus`). -/
def hexDigitUpper (n : Nat) : Char :=
  "0123456789ABCDEF".data.getD n '0'

/-- Is `c` a lowercase hexadecimal digit? -/
def isLowerHexChar (c : Char) : Bool :=
  hexCharsL.contains c

/-- Does the string consist only of lowercase hexadecimal digits? -/
def isLowerHexStr (s : String) : Bool :=
  s.data.all isLowerHexChar

/-- Hex digit value of a character, `none` when not a hex digit. -/
def hexVal (c : Char) : Option Nat :=
  if '0' ≤ c ∧ c ≤ '9' then some (c.toNat - '0'.toNat)
  else if 'a' ≤ c ∧ c ≤ 'f' then some (c.toNat - 'a'.toNat + 10)
  else if 'A' ≤ c ∧ c ≤ 'F' then some (c.toNat - 'A'.toNat + 10)
  else none

/-- Bytes to lowercase hex characters, two digits per byte. -/
def bytesToHexL : List Nat → List Char
  | [] => []
  | b :: rest => hexDigitChar (b / 16) :: hexDigitChar (b % 16) :: bytesToHexL rest

/-- `bytes.hex()`: lowercase hexadecimal rendering of a byte list. -/
def bytesToHex (bs : List Nat) : String :=
  String.mk (bytesToHexL bs)

/-- Decode a hex string to bytes, skipping ASCII spaces between digit pairs
as `bytes.fromhex` does; `none` models the `ValueError` on malformed input. -/
def hexDecodeL : List Char → Option (List Nat)
  | [] => some []
  | ' ' :: rest => hexDecodeL rest
  | a :: b :: rest =>
    match hexVal a, hexVal b with
    | some x, some y =>
      match hexDecodeL rest with
      | some bs => some ((x * 16 + y) :: bs)
      | none => none
    | _, _ => none
  | _ => none

/-- Model of `bytes.fromhex`. -/
def hexDecode (s : String) : Option (List Nat) :=
  hexDecodeL s.data

/-- UTF-8 encoding of one character as a byte list. -/
def utf8EncodeChar (c : Char) : List Nat :=
  let n := c.toNat
  if n < 0x80 then [n]
  else if n < 0x800 then [0xc0 + n / 64, 0x80 + n % 64]
  else if n < 0x10000 then [0xe0 + n / 4096, 0x80 + n / 64 % 64, 0x80 + n % 64]
  else [0xf0 + n / 262144, 0x80 + n / 4096 % 64, 0x80 + n / 64 % 64, 0x80 + n % 64]

/-- `str.encode("utf-8")`: UTF-8 bytes of a string. -/
def utf8Bytes (s : String) : List Nat :=
  (s.data.map utf8EncodeChar).flatten

/-- Python `sep.join(parts)`. -/
def pyJoin (sep : String) : List String → String
  | [] => ""
  | [x] => x
  | x :: y :: rest => x ++ sep ++ pyJoin sep (y :: rest)

/-- Join character-list chunks with a separator chunk between them. -/
def joinWithL (sep : List Char) : List (List Char) → List Char
  | [] => []
  | [x] => x
  | x :: y :: rest => x ++ sep ++ joinWithL sep (y :: rest)

/-! ## SHA-256 (`hashlib` primitive behind `pbkdf2_hmac`) -/

/-- The eight 32-bit working variables of SHA-256. -/
structure Sha8 where
  a : Nat
  b : Nat
  c : Nat
  d : Nat
  e : Nat
  f : Nat
  g : Nat
  h : Nat

/-- SHA-256 initial hash value (decimal). -/
def sha256H0 : Sha8 :=
  ⟨1779033703, 3144134277, 1013904242, 2773480762,
   1359893119, 2600822924, 528734635, 1541459225⟩

/-- SHA-256 round constants (decimal). -/
def sha256K : List Nat :=
  [1116352408, 1899447441, 3049323471, 3921009573, 961987163, 1508970993,
   2453635748, 2870763221, 3624381080, 310598401, 607225278, 1426881987,
   1925078388, 2162078206, 2614888103, 3248222580, 3835390401, 4022224774,
   264347078, 604807628, 770255983, 1249150122, 1555081692, 1996064986,
   2554220882, 2821834349, 2952996808, 3210313671, 3336571891, 3584528711,
   113926993, 338241895, 666307205, 773529912, 1294757372, 1396182291,
   1695183700, 1986661051, 2177026350, 2456956037, 2730485921, 2820302411,
   3259730800, 3345764771, 3516065817, 3600352804, 4094571909, 275423344,
   430227734, 506948616, 659060556, 883997877, 958139571, 1322822218,
   1537002063, 1747873779, 1955562222, 2024104815, 2227730452, 2361852424,
   2428436474, 2756734187, 3204031479, 3329325298]

/-- Right rotation of a 32-bit word. -/
def rotr32 (r x : Nat) : Nat :=
  (x / 2 ^ r + x % 2 ^ r * 2 ^ (32 - r)) % 2 ^ 32

/-- Big sigma-0: rotations by 2, 13, 22. -/
def bSig0 (x : Nat) : Nat :=
  rotr32 2 x ^^^ rotr32 13 x ^^^ rotr32 22 x

/-- Big sigma-1: rotations by 6, 11, 25. -/
def bSig1 (x : Nat) : Nat :=
  rotr32 6 x ^^^ rotr32 11 x ^^^ rotr32 25 x

/-- Small sigma-0: rotations by 7, 18 and shift by 3. -/
def sSig0 (x : Nat) : Nat :=
  rotr32 7 x ^^^ rotr32 18 x ^^^ x / 2 ^ 3

/-- Small sigma-1: rotations by 17, 19 and shift by 10. -/
def sSig1 (x : Nat) : Nat :=
  rotr32 17 x ^^^ rotr32 19 x ^^^ x / 2 ^ 10

/-- SHA-256 choice function. -/
def shaCh (x y z : Nat) : Nat :=
  x &&& y ^^^ (x ^^^ 0xffffffff) &&& z

/-- SHA-256 majority function. -/
def shaMaj (x y z : Nat) : Nat :=
  x &&& y ^^^ x &&& z ^^^ y &&& z

/-- Big-endian serialization of a 32-bit word as four bytes. -/
def w32be (w : Nat) : List Nat :=
  [w / 2 ^ 24 % 256, w / 2 ^ 16 % 256, w / 2 ^ 8 % 256, w % 256]

/-- Big-endian serialization of a 64-bit length field as eight bytes. -/
def w64be (w : Nat) : List Nat :=
  [w / 2 ^ 56 % 256, w / 2 ^ 48 % 256, w / 2 ^ 40 % 256, w / 2 ^ 32 % 256,
   w / 2 ^ 24 % 256, w / 2 ^ 16 % 256, w / 2 ^ 8 % 256, w % 256]

/-- SHA-256 padding: append `0x80`, zeros, and the 64-bit bit length. -/
def sha256Pad (msg : List Nat) : List Nat :=
  msg ++ 0x80 :: List.replicate ((64 - (msg.length + 9) % 64) % 64) 0
      ++ w64be (8 * msg.length % 2 ^ 64)

/-- Split a byte list into 64-byte chunks. -/
def chunk64 : List Nat → List (List Nat)
  | [] => []
  | b :: rest => (b :: rest).take 64 :: chunk64 ((b :: rest).drop 64)
termination_by l => l.length
decreasing_by simp [List.length_drop]; omega

/-- Combine bytes into big-endian 32-bit words, four bytes per word. -/
def bytesToWords : List Nat → List Nat
  | b0 :: b1 :: b2 :: b3 :: rest =>
    (b0 * 2 ^ 24 + b1 * 2 ^ 16 + b2 * 2 ^ 8 + b3) :: bytesToWords rest
  | _ => []

/-- One step of the message-schedule extension. -/
def scheduleWord (w : List Nat) : Nat :=
  (sSig1 (w.getD (w.length - 2) 0) + w.getD (w.length - 7) 0
    + sSig0 (w.getD (w.length - 15) 0) + w.getD (w.length - 16) 0) % 2 ^ 32

/-- Extend the message schedule by `fuel` further words. -/
def extendSchedule (w : List Nat) : Nat → List Nat
  | 0 => w
  | fuel + 1 => extendSchedule (w ++ [scheduleWord w]) fuel

/-- One SHA-256 compression round for a constant/schedule word pair. -/
def sha256Round (st : Sha8) (kw : Nat × Nat) : Sha8 :=
  let t1 := (st.h + bSig1 st.e + shaCh st.e st.f st.g + kw.1 + kw.2) % 2 ^ 32
  let t2 := (bSig0 st.a + shaMaj st.a st.b st.c) % 2 ^ 32
  ⟨(t1 + t2) % 2 ^ 32, st.a, st.b, st.c, (st.d + t1) % 2 ^ 32, st.e, st.f, st.g⟩

/-- Process one 64-byte block. -/
def sha256Compress (st : Sha8) (block : List Nat) : Sha8 :=
  let w := extendSchedule (bytesToWords block) 48
  let r := (sha256K.zip w).foldl sha256Round st
  ⟨(st.a + r.a) % 2 ^ 32, (st.b + r.b) % 2 ^ 32, (st.c + r.c) % 2 ^ 32,
   (st.d + r.d) % 2 ^ 32, (st.e + r.e) % 2 ^ 32, (st.f + r.f) % 2 ^ 32,
   (st.g + r.g) % 2 ^ 32, (st.h + r.h) % 2 ^ 32⟩

/-- Serialize the final state as 32 big-endian bytes. -/
def sha256Digest (st : Sha8) : List Nat :=
  w32be st.a ++ w32be st.b ++ w32be st.c ++ w32be st.d
    ++ w32be st.e ++ w32be st.f ++ w32be st.g ++ w32be st.h

/-- SHA-256 of a byte list. -/
def sha256Bytes (msg : List Nat) : List Nat :=
  sha256Digest ((chunk64 (sha256Pad msg)).foldl sha256Compress sha256H0)

/-! ## HMAC-SHA256 and PBKDF2 (`hashlib.pbkdf2_hmac("sha256", ...)`) -/

/-- HMAC-SHA256 with the usual 64-byte block size. -/
def hmacSha256 (key msg : List Nat) : List Nat :=
  let k0 := if key.length > 64 then sha256Bytes key else key
  let kp := k0 ++ List.replicate (64 - k0.length) 0
  sha256Bytes (kp.map (fun b => b ^^^ 0x5c)
    ++ sha256Bytes (kp.map (fun b => b ^^^ 0x36) ++ msg))

/-- Byte-wise xor of two equal-length byte lists. -/
def xorBytes (a b : List Nat) : List Nat :=
  List.zipWith (fun x y => x ^^^ y) a b

/-- 32-bit big-endian block index used by PBKDF2. -/
def intBE4 (i : Nat) : List Nat :=
  [i / 2 ^ 24 % 256, i / 2 ^ 16 % 256, i / 2 ^ 8 % 256, i % 256]

/-- Remaining PBKDF2 iterations: `u` is the last U-value, `acc` their xor. -/
def pbkdf2Go (pw : List Nat) : Nat → List Nat → List Nat → List Nat
  | 0, _, acc => acc
  | k + 1, u, acc =>
    let u2 := hmacSha256 pw u
    pbkdf2Go pw k u2 (xorBytes acc u2)

/-- The `i`-th PBKDF2 block `T_i` with `c` iterations. -/
def pbkdf2Block (pw salt : List Nat) (c i : Nat) : List Nat :=
  let u1 := hmacSha256 pw (salt ++ intBE4 i)
  pbkdf2Go pw (c - 1) u1 u1

/-- Concatenation of the first `n` PBKDF2 blocks `T_1 … T_n`. -/
def pbkdf2Blocks (pw salt : List Nat) (c : Nat) : Nat → List Nat
  | 0 => []
  | n + 1 => pbkdf2Blocks pw salt c n ++ pbkdf2Block pw salt c (n + 1)

/-- `hashlib.pbkdf2_hmac("sha256", pw, salt, c)` truncated to `dkLen` bytes
(the server leaves `dklen` unset, so `dkLen` is the 32-byte digest size). -/
def pbkdf2HmacSha256 (pw salt : List Nat) (c dkLen : Nat) : List Nat :=
  (pbkdf2Blocks pw salt c ((dkLen + 31) / 32)).take dkLen

/-! ## `hash_password` (src/server.py lines 43-49) -/

/-- The 16 fresh salt bytes produced by `secrets.token_bytes(16)`, supplied
as an explicit entropy source. -/
def freshSalt (entropy : Fin 16 → Nat) : List Nat :=
  List.ofFn fun i => entropy i % 256

/-- Body of `hash_password` once the salt bytes are fixed: derive the key
with PBKDF2-HMAC-SHA256 at 100000 iterations and hex-encode both outputs. -/
def hash_password_core (password : String) (saltBytes : List Nat) : String × String :=
  (bytesToHex (pbkdf2HmacSha256 (utf8Bytes password) saltBytes 100000 32),
   bytesToHex saltBytes)

/-- `hash_password(password, salt=None)`.  A missing salt consumes the
entropy source; a supplied salt is decoded with `bytes.fromhex`, whose
`ValueError` on malformed hex is modelled by `none`. -/
def hash_password (password : String) (salt : Option String)
    (entropy : Fin 16 → Nat) : Option (String × String) :=
  match salt with
  | none => some (hash_password_core password (freshSalt entropy))
  | some s =>
    match hexDecode s with
    | none => none
    | some sb => some (hash_password_core password sb)

/-! ## `urllib.parse` helpers: `quote_plus`, `unquote_plus`, `parse_qs` -/

/-- Characters `quote_plus` never escapes: ASCII alphanumerics and `_.-~`. -/
def isUrlSafe (c : Char) : Bool :=
  c.isAlpha || c.isDigit || c = '_' || c = '.' || c = '-' || c = '~'

/-- Percent-encode one byte with uppercase hex digits. -/
def pctEncode (b : Nat) : List Char :=
  ['%', hexDigitUpper (b / 16 % 16), hexDigitUpper (b % 16)]

/-- `quote_plus` on one character: safe characters pass through, a space
becomes `+`, everything else is percent-encoded byte-wise. -/
def quotePlusChar (c : Char) : List Char :=
  if isUrlSafe c then [c]
  else if c = ' ' then ['+']
  else (utf8EncodeChar c).map pctEncode |>.flatten

/-- Model of `urllib.parse.quote_plus` with its default empty safe set. -/
def quotePlus (s : String) : String :=
  String.mk ((s.data.map quotePlusChar).flatten)

/-- Is `c` an ASCII hex digit? -/
def isHexDigitAscii (c : Char) : Bool :=
  (hexVal c).isSome

/-- `unquote_plus` on a character list: `+` becomes a space and a valid
`%XX` escape becomes the byte value; a stray `%` is kept verbatim. -/
def unquotePlusL : List Char → List Char
  | [] => []
  | '+' :: rest => ' ' :: unquotePlusL rest
  | '%' :: a :: b :: rest =>
    match hexVal a, hexVal b with
    | some x, some y => Char.ofNat (x * 16 + y) :: unquotePlusL rest
    | _, _ => '%' :: unquotePlusL (a :: b :: rest)
  | c :: rest => c :: unquotePlusL rest

/-- Model of `urllib.parse.unquote_plus`. -/
def unquotePlus (s : String) : String :=
  String.mk (unquotePlusL s.data)

/-- Split a character list at every occurrence of `sep` (the chunk being
accumulated in reverse in `cur`). -/
def splitOnCharGo (sep : Char) : List Char → List Char → List (List Char)
  | [], cur => [cur.reverse]
  | c :: rest, cur =>
    if c = sep then cur.reverse :: splitOnCharGo sep rest []
    else splitOnCharGo sep rest (c :: cur)

/-- Split a character list on a separator character. -/
def splitOnCharL (sep : Char) (l : List Char) : List (List Char) :=
  splitOnCharGo sep l []

/-- Split a `name=value` pair at the first `=`; `none` when there is no `=`
(such fields are skipped by `parse_qs` with `strict_parsing` off). -/
def splitFirstEq : List Char → Option (List Char × List Char)
  | [] => none
  | '=' :: rest => some ([], rest)
  | c :: rest =>
    match splitFirstEq rest with
    | some (n, v) => some (c :: n, v)
    | none => none

/-- Append one value under a key, grouping values by key in first-occurrence
order as the `parse_qs` result dict does. -/
def addPair : List (String × List String) → String → String → List (String × List String)
  | [], k, v => [(k, [v])]
  | (k0, vs) :: rest, k, v =>
    if k0 = k then (k0, vs ++ [v]) :: rest else (k0, vs) :: addPair rest k v

/-- Model of `urllib.parse.parse_qs` with default arguments: split the body
on `&`, skip empty fields, fields without `=` and fields with an empty
value (`keep_blank_values` is off), and unquote names and values. -/
def parse_qs (body : String) : List (String × List String) :=
  (splitOnCharL '&' body.data).foldl
    (fun acc nv =>
      match nv with
      | [] => acc
      | _ =>
        match splitFirstEq nv with
        | none => acc
        | some (n, v) =>
          if v = [] then acc
          else addPair acc (unquotePlus (String.mk n)) (unquotePlus (String.mk v)))
    []

/-! ## Data model: the `users` table and the handler state -/

/-- One row of the `users` table (src/server.py lines 29-37). -/
structure User where
  id : Nat
  name : String
  email : String
  password_hash : String
  password_salt : String
  role : String
  created_at : String
deriving DecidableEq

/-- The database: the `users` rows in insertion order plus the next
`AUTOINCREMENT` id. -/
structure Db where
  users : List User
  nextId : Nat
deriving DecidableEq

/-- A 303 See Other response as produced by `redirect_with_message`. -/
structure Response303 where
  status : Nat
  location : String
deriving DecidableEq

/-- `redirect_with_message` (src/server.py lines 172-176). -/
def redirect_with_message (message : String) (level : String) : Response303 :=
  ⟨303, "/?message=" ++ quotePlus message ++ "&level=" ++ quotePlus level⟩

/-- `(data.get(key) or [""])[0]`: first value under a key, `""` when the
key is absent. -/
def formFirst (data : List (String × List String)) (key : String) : String :=
  match data.lookup key with
  | some (v :: _) => v
  | _ => ""

/-- The single-quote character, written via its code point. -/
def sqStr : String :=
  String.singleton (Char.ofNat 39)

/-- Wrap a string in single quotes, as the role error message does. -/
def quoteSq (s : String) : String :=
  sqStr ++ s ++ sqStr

/-- The validation error list of `handle_register` (src/server.py lines
143-151), applied to the already trimmed/lowercased field values. -/
def errsFor (name email password role : String) : List String :=
  (if name = "" then ["Name is required."] else [])
    ++ (if email = "" then ["Email is required."] else [])
    ++ (if password = "" then ["Password is required."] else [])
    ++ (if role = "admin" ∨ role = "user" then []
        else ["Role must be " ++ quoteSq "admin" ++ " or " ++ quoteSq "user" ++ "."])

/-- `handle_register` (src/server.py lines 134-170) after form decoding:
takes the four raw field values, validates, hashes and inserts.  The
`UNIQUE` constraint on `email` raising `sqlite3.IntegrityError` is modelled
by the membership test over the stored rows. -/
def registerFields (db : Db) (now : String) (entropy : Fin 16 → Nat)
    (rawName rawEmail rawPassword rawRole : String) : Response303 × Db :=
  let name := pyStrip rawName
  let email := pyLower (pyStrip rawEmail)
  let password := rawPassword
  let role := pyLower (pyStrip rawRole)
  let errors := errsFor name email password role
  if errors ≠ [] then
    (redirect_with_message (pyJoin " " errors) "error", db)
  else
    let hashSalt := hash_password_core password (freshSalt entropy)
    if db.users.any (fun u => u.email == email) then
      (redirect_with_message "That email is already registered." "error", db)
    else
      (redirect_with_message "Registration successful!" "success",
       ⟨db.users ++ [⟨db.nextId, name, email, hashSalt.1, hashSalt.2, role, now⟩],
        db.nextId + 1⟩)

/-- `handle_register` on the parsed form dict. -/
def registerCore (db : Db) (now : String) (entropy : Fin 16 → Nat)
    (data : List (String × List String)) : Response303 × Db :=
  registerFields db now entropy (formFirst data "name") (formFirst data "email")
    (formFirst data "password") (formFirst data "role")

/-- `handle_register` on the raw URL-encoded body. -/
def handle_register (db : Db) (now : String) (entropy : Fin 16 → Nat)
    (body : String) : Response303 × Db :=
  registerCore db now entropy (parse_qs body)

/-! ## `serve_users` (src/server.py lines 103-118) -/

/-- JSON values as produced by `json.dumps` on the user listing. -/
inductive JValue where
  | jstr (s : String)
  | jint (n : Int)
  | jarr (xs : List JValue)
  | jobj (fields : List (String × JValue))

/-- Escape one character for a JSON string literal (`ensure_ascii` style:
code points outside printable ASCII become one `\uXXXX` escape). -/
def jsonEscapeChar (c : Char) : List Char :=
  if c = '"' then ['\\', '"']
  else if c = '\\' then ['\\', '\\']
  else if c = '\n' then ['\\', 'n']
  else if c = '\t' then ['\\', 't']
  else if c = '\x0d' then ['\\', 'r']
  else if c = '\x08' then ['\\', 'b']
  else if c = '\x0c' then ['\\', 'f']
  else if c.toNat < 0x20 ∨ c.toNat > 0x7e then
    ['\\', 'u', hexDigitChar (c.toNat / 4096 % 16), hexDigitChar (c.toNat / 256 % 16),
     hexDigitChar (c.toNat / 16 % 16), hexDigitChar (c.toNat % 16)]
  else [c]

/-- JSON string-literal escaping. -/
def jsonEscape (s : String) : String :=
  String.mk ((s.data.map jsonEscapeChar).flatten)

/-- The `2 * lvl` spaces written at nesting level `lvl` for `indent=2`. -/
def indentPad (lvl : Nat) : String :=
  String.mk (List.replicate (2 * lvl) ' ')

/-- `json.dumps(v, indent=2)` rendering at nesting level `lvl`: containers
open on their own line, every entry is written on a fresh line indented two
spaces deeper, entries are separated by commas, keys use the `": "` key
separator, and empty containers collapse. -/
def dumpsV : JValue → Nat → String
  | .jstr s, _ => "\"" ++ jsonEscape s ++ "\""
  | .jint n, _ => toString n
  | .jarr [], _ => "[]"
  | .jarr (x :: xs), lvl =>
    "[\n"
      ++ pyJoin ",\n" (((x :: xs).attach).map
          (fun y => indentPad (lvl + 1) ++ dumpsV y.1 (lvl + 1)))
      ++ "\n" ++ indentPad lvl ++ "]"
  | .jobj [], _ => "\x7b\x7d"
  | .jobj (f :: fs), lvl =>
    "\x7b\n"
      ++ pyJoin ",\n" (((f :: fs).attach).map
          (fun y => indentPad (lvl + 1) ++ "\"" ++ jsonEscape y.1.1 ++ "\": "
            ++ dumpsV y.1.2 (lvl + 1)))
      ++ "\n" ++ indentPad lvl ++ "\x7d"
termination_by v _ => sizeOf v
decreasing_by
  · have h := List.sizeOf_lt_of_mem y.2
    simp only [List.cons.sizeOf_spec, JValue.jarr.sizeOf_spec] at h ⊢
    omega
  · have h := List.sizeOf_lt_of_mem y.2
    obtain ⟨⟨k, v⟩, hm⟩ := y
    simp only [List.cons.sizeOf_spec, Prod.mk.sizeOf_spec,
      JValue.jobj.sizeOf_spec] at h ⊢
    omega

/-- Keys of a JSON object, in order. -/
def jsonKeys : JValue → List String
  | .jobj fields => fields.map (fun f => f.1)
  | _ => []

/-- One row of the `SELECT id, name, email, role, created_at` projection as
a JSON object, in the column order of the query. -/
def userJson (u : User) : JValue :=
  .jobj [("id", .jint u.id), ("name", .jstr u.name), ("email", .jstr u.email),
         ("role", .jstr u.role), ("created_at", .jstr u.created_at)]

/-- Insert a user into a list sorted by `created_at` descending. -/
def insertDesc (u : User) : List User → List User
  | [] => [u]
  | v :: rest =>
    if v.created_at ≤ u.created_at then u :: v :: rest else v :: insertDesc u rest

/-- `ORDER BY created_at DESC`: sort the rows newest-first (SQLite compares
the TEXT column with binary collation, i.e. lexicographically). -/
def sortUsersDesc : List User → List User
  | [] => []
  | u :: rest => insertDesc u (sortUsersDesc rest)

/-- The JSON payload of the user listing. -/
def usersPayload (users : List User) : JValue :=
  .jobj [("users", .jarr ((sortUsersDesc users).map userJson))]

/-- An HTTP 200 response with a string body. -/
structure UsersResponse where
  status : Nat
  contentType : String
  body : String
deriving DecidableEq

/-- `serve_users`: query all users newest-first, project out the five
public columns, and return the pretty-printed JSON object. -/
def serve_users (db : Db) : UsersResponse :=
  ⟨200, "application/json; charset=utf-8", dumpsV (usersPayload db.users) 0⟩

/-! ## `serve_static` (src/server.py lines 120-132) -/

/-- Replace the first occurrence of `pat` in `s` by `rep`
(`str.replace(pat, rep, 1)`). -/
def replaceFirstL (pat rep : List Char) : List Char → List Char
  | [] => []
  | c :: rest =>
    if pat.isPrefixOf (c :: rest) then rep ++ (c :: rest).drop pat.length
    else c :: replaceFirstL pat rep rest

/-- `path.replace("/static/", "", 1)` at the string level. -/
def replaceFirstStr (s pat rep : String) : String :=
  String.mk (replaceFirstL pat.data rep.data s.data)

/-- Structural string-prefix test (`str.startswith`). -/
def startsWithL (pre s : String) : Bool :=
  pre.data.isPrefixOf s.data

/-- Parse a path string the way `pathlib` does: note whether it is
absolute and keep its non-empty segments other than `.`. -/
def parsePathSegs (s : String) : Bool × List String :=
  (startsWithL "/" s,
   (splitOnCharL '/' s.data).map String.mk |>.filter (fun seg => seg ≠ "" ∧ seg ≠ "."))

/-- `PUBLIC_DIR / relative`: `pathlib` joining, where an absolute right
operand replaces the left operand entirely. -/
def joinPath (base : List String) (relative : String) : List String :=
  let p := parsePathSegs relative
  if p.1 then p.2 else base ++ p.2

/-- Resolve `.` and `..` segments the way the operating system does when
the candidate path is opened (`..` above the root stays at the root). -/
def normalizeSegs (segs : List String) : List String :=
  segs.foldl
    (fun acc s =>
      if s = ".." then acc.dropLast
      else if s = "." ∨ s = "" then acc
      else acc ++ [s])
    []

/-- The file the static handler will open for a request `path`, given the
server base directory: strip the first `/static/`, join onto
`BASE_DIR/public`, resolve. -/
def resolveStatic (baseSegs : List String) (path : String) : List String :=
  normalizeSegs (joinPath (baseSegs ++ ["public"]) (replaceFirstStr path "/static/" ""))

/-- Does the resolved path lie inside the public directory? (This check is
a specification-side notion; the handler itself performs no such check.) -/
def underPublic (baseSegs : List String) (resolved : List String) : Bool :=
  (normalizeSegs (baseSegs ++ ["public"])).isPrefixOf resolved

/-- `pathlib` suffix of a file name: the last dot-separated extension,
empty for names without a dot or for a bare leading-dot name. -/
def nameSuffix (nm : String) : String :=
  let parts := (splitOnCharL '.' nm.data).map String.mk
  match parts with
  | [] => ""
  | [_] => ""
  | first :: _ :: _ =>
    if first = "" ∧ parts.length = 2 then ""
    else "." ++ parts.getLastD ""

/-- Suffix of the final segment of a resolved path. -/
def pathSuffix (segs : List String) : String :=
  match segs.getLast? with
  | none => ""
  | some nm => nameSuffix nm

/-- Result of the static handler: a 200 with bytes, or a 404. -/
inductive StaticResult where
  | ok (contentType : String) (content : List Nat)
  | notFound
deriving DecidableEq

/-- `serve_static`: the file system is an explicit map from resolved
absolute paths to file bytes (`none` when no regular file is there). -/
def serve_static (fs : List String → Option (List Nat))
    (baseSegs : List String) (path : String) : StaticResult :=
  let resolved := resolveStatic baseSegs path
  match fs resolved with
  | some content =>
    .ok ((if pathSuffix resolved = ".css" then "text/css"
          else "application/octet-stream") ++ "; charset=utf-8") content
  | none => .notFound

/-! ## `render_template` (src/server.py lines 57-62) -/

/-- Python `str.replace(pat, rep)` for a non-empty pattern: replace all
non-overlapping occurrences left to right.  (For the empty pattern, which
the template placeholders never produce, the string is returned as is.) -/
def replaceAll (s pat rep : List Char) : List Char :=
  match pat with
  | [] => s
  | p :: ps =>
    match s with
    | [] => []
    | c :: rest =>
      if (p :: ps).isPrefixOf (c :: rest) then
        rep ++ replaceAll ((c :: rest).drop (ps.length + 1)) (p :: ps) rep
      else
        c :: replaceAll rest (p :: ps) rep
termination_by s.length
decreasing_by
  all_goals simp [List.length_drop]
  omega

/-- Split at every occurrence of a non-empty pattern, mirroring the
recursion of `replaceAll` chunk by chunk. -/
def splitOnList (s pat : List Char) : List (List Char) :=
  match pat with
  | [] => [s]
  | p :: ps =>
    match s with
    | [] => [[]]
    | c :: rest =>
      if (p :: ps).isPrefixOf (c :: rest) then
        [] :: splitOnList ((c :: rest).drop (ps.length + 1)) (p :: ps)
      else
        match splitOnList rest (p :: ps) with
        | [] => [[c]]
        | chunk :: more => (c :: chunk) :: more
termination_by s.length
decreasing_by
  all_goals simp [List.length_drop]
  omega

/-- The placeholder token for a context key: open double-brace, space, the
key, space, close double-brace. -/
def placeholderToken (key : String) : String :=
  "\x7b\x7b " ++ key ++ " \x7d\x7d"

/-- `render_template` on template text: fold over the context entries in
order, replacing every occurrence of each placeholder token by the entry's
value (src/server.py lines 60-61). -/
def render_template (tpl : String) (context : List (String × String)) : String :=
  context.foldl
    (fun content kv =>
      String.mk (replaceAll content.data (placeholderToken kv.1).data kv.2.data))
    tpl

/-! ## `log_message` (src/server.py lines 178-183) -/

/-- The log line format: client IP, UTC timestamp, request description. -/
def formatLogLine (clientIp timestamp message : String) : String :=
  clientIp ++ " - - [" ++ timestamp ++ "] " ++ message ++ "\n"

/-- `log_message`: append the formatted line to `server.log`.  The append
is an effect that can fail; `appendToLog` returns `Except.error` for an
`OSError`.  The body contains no exception handler, so the append's
outcome is the function's outcome. -/
def log_message (clientIp timestamp message : String)
    (appendToLog : String → Except String Unit) : Except String Unit :=
  appendToLog (formatLogLine clientIp timestamp message)

/-! ## Lemmas about the registration handler -/

theorem errsFor_eq_nil (name email password role : String)
    (hn : name ≠ "") (he : email ≠ "") (hp : password ≠ "")
    (hr : role = "admin" ∨ role = "user") :
    errsFor name email password role = [] := by
  simp [errsFor, hn, he, hp, hr]

theorem users_any_eq_false (users : List User) (email : String)
    (h : ∀ u ∈ users, u.email ≠ email) :
    (users.any fun u => u.email == email) = false := by
  simp only [List.any_eq_false, beq_iff_eq]
  exact h

theorem registerFields_success (db : Db) (now : String) (entropy : Fin 16 → Nat)
    (rawName rawEmail rawPassword rawRole : String)
    (hn : pyStrip rawName ≠ "") (he : pyLower (pyStrip rawEmail) ≠ "")
    (hp : rawPassword ≠ "")
    (hr : pyLower (pyStrip rawRole) = "admin" ∨ pyLower (pyStrip rawRole) = "user")
    (habsent : ∀ u ∈ db.users, u.email ≠ pyLower (pyStrip rawEmail)) :
    registerFields db now entropy rawName rawEmail rawPassword rawRole =
      (redirect_with_message "Registration successful!" "success",
       ⟨db.users ++ [⟨db.nextId, pyStrip rawName, pyLower (pyStrip rawEmail),
          (hash_password_core rawPassword (freshSalt entropy)).1,
          (hash_password_core rawPassword (freshSalt entropy)).2,
          pyLower (pyStrip rawRole), now⟩], db.nextId + 1⟩) := by
  unfold registerFields
  dsimp only
  rw [errsFor_eq_nil _ _ _ _ hn he hp hr,
    users_any_eq_false _ _ habsent]
  simp

theorem registerFields_validation (db : Db) (now : String) (entropy : Fin 16 → Nat)
    (rawName rawEmail rawPassword rawRole : String)
    (h : errsFor (pyStrip rawName) (pyLower (pyStrip rawEmail)) rawPassword
          (pyLower (pyStrip rawRole)) ≠ []) :
    registerFields db now entropy rawName rawEmail rawPassword rawRole =
      (redirect_with_message
        (pyJoin " " (errsFor (pyStrip rawName) (pyLower (pyStrip rawEmail)) rawPassword
          (pyLower (pyStrip rawRole)))) "error", db) := by
  unfold registerFields
  dsimp only
  rw [if_pos h]

theorem registerFields_duplicate (db : Db) (now : String) (entropy : Fin 16 → Nat)
    (rawName rawEmail rawPassword rawRole : String)
    (hn : pyStrip rawName ≠ "") (he : pyLower (pyStrip rawEmail) ≠ "")
    (hp : rawPassword ≠ "")
    (hr : pyLower (pyStrip rawRole) = "admin" ∨ pyLower (pyStrip rawRole) = "user")
    (hdup : (db.users.any fun u => u.email == pyLower (pyStrip rawEmail)) = true) :
    registerFields db now entropy rawName rawEmail rawPassword rawRole =
      (redirect_with_message "That email is already registered." "error", db) := by
  unfold registerFields
  dsimp only
  rw [errsFor_eq_nil _ _ _ _ hn he hp hr, hdup]
  simp

/-! ## Claim theorems: registration -/

/-- Claim C1: for a registration request with valid fields, the first
insert for an email succeeds, and any later registration whose email
equals an already-registered (normalised) email up to ASCII case
differences fails with the 303 redirect carrying "That email is already
registered." at level error, leaving the stored table unchanged. -/
theorem registration_unique_email
    (db db2 : Db) (now now2 : String) (e1 e2 : Fin 16 → Nat)
    (name email password role name2 email2 password2 role2 : String)
    (hn : pyStrip name ≠ "") (he : pyLower (pyStrip email) ≠ "") (hp : password ≠ "")
    (hr : pyLower (pyStrip role) = "admin" ∨ pyLower (pyStrip role) = "user")
    (habsent : ∀ u ∈ db.users, u.email ≠ pyLower (pyStrip email))
    (hn2 : pyStrip name2 ≠ "") (he2 : pyLower (pyStrip email2) ≠ "") (hp2 : password2 ≠ "")
    (hr2 : pyLower (pyStrip role2) = "admin" ∨ pyLower (pyStrip role2) = "user")
    (hstored : ∀ u ∈ db2.users, u.email = pyLower u.email)
    (hdup : ∃ u ∈ db2.users, asciiCaseEq u.email (pyStrip email2)) :
    registerFields db now e1 name email password role =
      (redirect_with_message "Registration successful!" "success",
       ⟨db.users ++ [⟨db.nextId, pyStrip name, pyLower (pyStrip email),
          (hash_password_core password (freshSalt e1)).1,
          (hash_password_core password (freshSalt e1)).2, pyLower (pyStrip role), now⟩],
        db.nextId + 1⟩)
    ∧ registerFields db2 now2 e2 name2 email2 password2 role2 =
      (redirect_with_message "That email is already registered." "error", db2) := by
  refine ⟨registerFields_success db now e1 name email password role hn he hp hr habsent, ?_⟩
  apply registerFields_duplicate db2 now2 e2 name2 email2 password2 role2 hn2 he2 hp2 hr2
  obtain ⟨u, hu, hcase⟩ := hdup
  have hmatch : u.email = pyLower (pyStrip email2) := by
    rw [hstored u hu]
    exact hcase
  exact List.any_eq_true.mpr ⟨u, hu, by simp [hmatch]⟩

theorem registration_unique_email_witness :
    registerFields ⟨[], 1⟩ "2025-01-01T00:00:00" (fun _ => 0)
        "Alice" "Alice@Test.com" "pw" "User" =
      (redirect_with_message "Registration successful!" "success",
       ⟨[] ++ [⟨1, pyStrip "Alice", pyLower (pyStrip "Alice@Test.com"),
          (hash_password_core "pw" (freshSalt fun _ => 0)).1,
          (hash_password_core "pw" (freshSalt fun _ => 0)).2,
          pyLower (pyStrip "User"), "2025-01-01T00:00:00"⟩], 1 + 1⟩)
    ∧ registerFields ⟨[⟨1, "Alice", "alice@test.com", "h", "s", "user",
          "2025-01-01T00:00:00"⟩], 2⟩ "2025-01-02T00:00:00" (fun _ => 0)
        "Bob" "ALICE@test.COM" "pw2" "admin" =
      (redirect_with_message "That email is already registered." "error",
       ⟨[⟨1, "Alice", "alice@test.com", "h", "s", "user", "2025-01-01T00:00:00"⟩], 2⟩) :=
  registration_unique_email ⟨[], 1⟩
    ⟨[⟨1, "Alice", "alice@test.com", "h", "s", "user", "2025-01-01T00:00:00"⟩], 2⟩
    "2025-01-01T00:00:00" "2025-01-02T00:00:00" (fun _ => 0) (fun _ => 0)
    "Alice" "Alice@Test.com" "pw" "User" "Bob" "ALICE@test.COM" "pw2" "admin"
    (by decide) (by decide) (by decide) (Or.inr (by decide))
    (by simp) (by decide) (by decide) (by decide) (Or.inl (by decide))
    (by decide) (by decide)

/-- Claim C2: on validation failure the handler accumulates all applicable
error messages in the fixed order name, email, password, role, joins them
with single spaces, and responds with a 303 redirect to `/` carrying that
message at level error without touching the table; in particular an empty
name and empty password (other fields valid) yield exactly
"Name is required. Password is required.". -/
theorem registration_validation_errors
    (db : Db) (now : String) (entropy : Fin 16 → Nat)
    (name email password role email2 role2 : String)
    (h : errsFor (pyStrip name) (pyLower (pyStrip email)) password
          (pyLower (pyStrip role)) ≠ [])
    (he2 : pyLower (pyStrip email2) ≠ "")
    (hr2 : pyLower (pyStrip role2) = "admin" ∨ pyLower (pyStrip role2) = "user") :
    registerFields db now entropy name email password role =
      (redirect_with_message
        (pyJoin " " (errsFor (pyStrip name) (pyLower (pyStrip email)) password
          (pyLower (pyStrip role)))) "error", db)
    ∧ registerFields db now entropy "" email2 "" role2 =
      (redirect_with_message "Name is required. Password is required." "error", db) := by
  refine ⟨registerFields_validation db now entropy name email password role h, ?_⟩
  have herrs : errsFor (pyStrip "") (pyLower (pyStrip email2)) ""
      (pyLower (pyStrip role2)) = ["Name is required.", "Password is required."] := by
    simp [errsFor, show pyStrip "" = "" from by decide, he2, hr2]
  rw [registerFields_validation db now entropy "" email2 "" role2 (by rw [herrs]; simp),
    herrs, show pyJoin " " ["Name is required.", "Password is required."] =
      "Name is required. Password is required." from by decide]

theorem registration_validation_errors_witness :
    registerFields ⟨[], 1⟩ "T" (fun _ => 0) "Zoe" "z@x.com" "pw" "boss" =
      (redirect_with_message
        (pyJoin " " (errsFor (pyStrip "Zoe") (pyLower (pyStrip "z@x.com")) "pw"
          (pyLower (pyStrip "boss")))) "error", ⟨[], 1⟩)
    ∧ registerFields ⟨[], 1⟩ "T" (fun _ => 0) "" "z@x.com" "" "user" =
      (redirect_with_message "Name is required. Password is required." "error", ⟨[], 1⟩) :=
  registration_validation_errors ⟨[], 1⟩ "T" (fun _ => 0)
    "Zoe" "z@x.com" "pw" "boss" "z@x.com" "user"
    (by decide) (by decide) (Or.inr (by decide))

/-- Claim C3: the concrete scenario: POSTing
`name=Alice&email=Alice@Test.com&password=secret&role=User` to a table
with no user under `alice@test.com` inserts a row whose email is
`alice@test.com` and role is `user`, and responds with a 303 whose
Location is exactly `/?message=Registration+successful%21&level=success`. -/
theorem register_alice_scenario (db : Db) (now : String) (entropy : Fin 16 → Nat)
    (habsent : ∀ u ∈ db.users, u.email ≠ "alice@test.com") :
    handle_register db now entropy
        "name=Alice&email=Alice@Test.com&password=secret&role=User" =
      (⟨303, "/?message=Registration+successful%21&level=success"⟩,
       ⟨db.users ++ [⟨db.nextId, "Alice", "alice@test.com",
          (hash_password_core "secret" (freshSalt entropy)).1,
          (hash_password_core "secret" (freshSalt entropy)).2, "user", now⟩],
        db.nextId + 1⟩) := by
  have hform : handle_register db now entropy
      "name=Alice&email=Alice@Test.com&password=secret&role=User" =
      registerFields db now entropy "Alice" "Alice@Test.com" "secret" "User" := rfl
  rw [hform, registerFields_success db now entropy "Alice" "Alice@Test.com" "secret" "User"
    (by decide) (by decide) (by decide) (Or.inr (by decide))
    (by simpa [show pyLower (pyStrip "Alice@Test.com") = "alice@test.com" from by decide]
      using habsent)]
  simp [show pyStrip "Alice" = "Alice" from by decide,
    show pyLower (pyStrip "Alice@Test.com") = "alice@test.com" from by decide,
    show pyLower (pyStrip "User") = "user" from by decide,
    show redirect_with_message "Registration successful!" "success" =
      ⟨303, "/?message=Registration+successful%21&level=success"⟩ from by decide]

theorem register_alice_scenario_witness :
    handle_register ⟨[], 1⟩ "2025-01-01T00:00:00" (fun _ => 0)
        "name=Alice&email=Alice@Test.com&password=secret&role=User" =
      (⟨303, "/?message=Registration+successful%21&level=success"⟩,
       ⟨[] ++ [⟨1, "Alice", "alice@test.com",
          (hash_password_core "secret" (freshSalt fun _ => 0)).1,
          (hash_password_core "secret" (freshSalt fun _ => 0)).2, "user",
          "2025-01-01T00:00:00"⟩], 1 + 1⟩) :=
  register_alice_scenario ⟨[], 1⟩ "2025-01-01T00:00:00" (fun _ => 0) (by simp)

/-- Claim C10: the name field is trimmed before the emptiness check, so a
whitespace-only name is rejected with "Name is required.", while the
password field is used verbatim, so a whitespace-only password counts as
non-empty and is hashed as supplied. -/
theorem register_trim_asymmetry
    (db : Db) (now : String) (entropy : Fin 16 → Nat)
    (ws name2 email password wp role : String)
    (hws : pyStrip ws = "")
    (hp : password ≠ "")
    (he : pyLower (pyStrip email) ≠ "")
    (hr : pyLower (pyStrip role) = "admin" ∨ pyLower (pyStrip role) = "user")
    (hn2 : pyStrip name2 ≠ "")
    (hwp0 : pyStrip wp = "") (hwp : wp ≠ "")
    (habsent : ∀ u ∈ db.users, u.email ≠ pyLower (pyStrip email)) :
    registerFields db now entropy ws email password role =
      (redirect_with_message "Name is required." "error", db)
    ∧ registerFields db now entropy name2 email wp role =
      (redirect_with_message "Registration successful!" "success",
       ⟨db.users ++ [⟨db.nextId, pyStrip name2, pyLower (pyStrip email),
          (hash_password_core wp (freshSalt entropy)).1,
          (hash_password_core wp (freshSalt entropy)).2, pyLower (pyStrip role), now⟩],
        db.nextId + 1⟩) := by
  constructor
  · have herrs : errsFor (pyStrip ws) (pyLower (pyStrip email)) password
        (pyLower (pyStrip role)) = ["Name is required."] := by
      simp [errsFor, hws, he, hp, hr]
    rw [registerFields_validation db now entropy ws email password role (by rw [herrs]; simp),
      herrs]
    rfl
  · exact registerFields_success db now entropy name2 email wp role hn2 he hwp hr habsent

theorem register_trim_asymmetry_witness :
    registerFields ⟨[], 1⟩ "T" (fun _ => 0) "   " "a@b.com" "pw" "user" =
      (redirect_with_message "Name is required." "error", ⟨[], 1⟩)
    ∧ registerFields ⟨[], 1⟩ "T" (fun _ => 0) "Bob" "a@b.com" "   " "user" =
      (redirect_with_message "Registration successful!" "success",
       ⟨[] ++ [⟨1, pyStrip "Bob", pyLower (pyStrip "a@b.com"),
          (hash_password_core "   " (freshSalt fun _ => 0)).1,
          (hash_password_core "   " (freshSalt fun _ => 0)).2,
          pyLower (pyStrip "user"), "T"⟩], 1 + 1⟩) :=
  register_trim_asymmetry ⟨[], 1⟩ "T" (fun _ => 0) "   " "Bob" "a@b.com" "pw" "   " "user"
    (by decide) (by decide) (by decide) (Or.inr (by decide)) (by decide)
    (by decide) (by decide) (by simp)

/-! ## Lemmas about the user listing -/

theorem mem_insertDesc (u x : User) (l : List User) (hx : x ∈ insertDesc u l) :
    x = u ∨ x ∈ l := by
  induction l with
  | nil =>
    simp [insertDesc] at hx
    exact Or.inl hx
  | cons v rest ih =>
    unfold insertDesc at hx
    by_cases hc : v.created_at ≤ u.created_at
    · rw [if_pos hc] at hx
      rcases List.mem_cons.mp hx with rfl | hx2
      · exact Or.inl rfl
      · exact Or.inr hx2
    · rw [if_neg hc] at hx
      rcases List.mem_cons.mp hx with rfl | hx2
      · exact Or.inr (List.mem_cons_self _ _)
      · rcases ih hx2 with rfl | hmem
        · exact Or.inl rfl
        · exact Or.inr (List.mem_cons_of_mem _ hmem)

theorem pairwise_insertDesc (u : User) (l : List User)
    (h : l.Pairwise fun a b => b.created_at ≤ a.created_at) :
    (insertDesc u l).Pairwise fun a b => b.created_at ≤ a.created_at := by
  induction l with
  | nil => simp [insertDesc]
  | cons v rest ih =>
    rw [List.pairwise_cons] at h
    obtain ⟨hv, hrest⟩ := h
    unfold insertDesc
    by_cases hc : v.created_at ≤ u.created_at
    · rw [if_pos hc]
      refine List.Pairwise.cons ?_ (List.Pairwise.cons hv hrest)
      intro x hx
      rcases List.mem_cons.mp hx with rfl | hx2
      · exact hc
      · exact le_trans (hv x hx2) hc
    · rw [if_neg hc]
      refine List.Pairwise.cons ?_ (ih hrest)
      intro x hx
      rcases mem_insertDesc u x rest hx with rfl | hmem
      · exact le_of_not_le hc
      · exact hv x hmem

theorem perm_insertDesc (u : User) (l : List User) :
    List.Perm (insertDesc u l) (u :: l) := by
  induction l with
  | nil => simp [insertDesc]
  | cons v rest ih =>
    unfold insertDesc
    by_cases hc : v.created_at ≤ u.created_at
    · rw [if_pos hc]
    · rw [if_neg hc]
      exact List.Perm.trans (List.Perm.cons v ih) (List.Perm.swap u v rest)

theorem pairwise_sortUsersDesc (l : List User) :
    (sortUsersDesc l).Pairwise fun a b => b.created_at ≤ a.created_at := by
  induction l with
  | nil => simp [sortUsersDesc]
  | cons u rest ih => exact pairwise_insertDesc u (sortUsersDesc rest) ih

theorem perm_sortUsersDesc (l : List User) :
    List.Perm (sortUsersDesc l) l := by
  induction l with
  | nil => simp [sortUsersDesc]
  | cons u rest ih =>
    exact List.Perm.trans (perm_insertDesc u (sortUsersDesc rest)) (List.Perm.cons u ih)

theorem userJson_keys (u : User) :
    jsonKeys (userJson u) = ["id", "name", "email", "role", "created_at"] := rfl

theorem map_userJson_keys (l : List User) :
    (l.map fun u => jsonKeys (userJson u))
      = List.replicate l.length ["id", "name", "email", "role", "created_at"] := by
  induction l with
  | nil => rfl
  | cons u rest ih => simp [ih, List.replicate_succ, userJson_keys]

/-- Claim C4: for every table state, the user listing is a 200 response of
content type `application/json; charset=utf-8` whose body is the
2-space-indented JSON rendering of the single-key object `users` holding
the rows projected to exactly id, name, email, role, created_at (no
password fields), ordered by `created_at` descending. -/
theorem users_listing_shape (db : Db) :
    serve_users db = ⟨200, "application/json; charset=utf-8",
        dumpsV (JValue.jobj [("users",
          JValue.jarr ((sortUsersDesc db.users).map userJson))]) 0⟩
    ∧ ((sortUsersDesc db.users).map fun u => jsonKeys (userJson u))
        = List.replicate (sortUsersDesc db.users).length
            ["id", "name", "email", "role", "created_at"]
    ∧ ((sortUsersDesc db.users).Pairwise fun a b => b.created_at ≤ a.created_at)
    ∧ List.Perm (sortUsersDesc db.users) db.users := by
  exact ⟨rfl, map_userJson_keys _, pairwise_sortUsersDesc _, perm_sortUsersDesc _⟩

/-! ## Lemmas about hashing -/

theorem sha256Digest_length (st : Sha8) : (sha256Digest st).length = 32 := by
  simp [sha256Digest, w32be]

theorem sha256Bytes_length (msg : List Nat) : (sha256Bytes msg).length = 32 := by
  rw [sha256Bytes, sha256Digest_length]

theorem hmacSha256_length (key msg : List Nat) : (hmacSha256 key msg).length = 32 := by
  rw [hmacSha256]
  exact sha256Bytes_length _

theorem xorBytes_length (a b : List Nat) :
    (xorBytes a b).length = min a.length b.length := by
  simp [xorBytes]

theorem pbkdf2Go_length (pw : List Nat) (k : Nat) (u acc : List Nat)
    (h : acc.length = 32) : (pbkdf2Go pw k u acc).length = 32 := by
  induction k generalizing u acc with
  | zero => exact h
  | succ k ih =>
    unfold pbkdf2Go
    exact ih _ _ (by rw [xorBytes_length, h, hmacSha256_length]; rfl)

theorem pbkdf2Block_length (pw salt : List Nat) (c i : Nat) :
    (pbkdf2Block pw salt c i).length = 32 := by
  unfold pbkdf2Block
  exact pbkdf2Go_length _ _ _ _ (hmacSha256_length _ _)

theorem pbkdf2_dk32_length (pw salt : List Nat) (c : Nat) :
    (pbkdf2HmacSha256 pw salt c 32).length = 32 := by
  unfold pbkdf2HmacSha256 pbkdf2Blocks
  simp [List.length_take, pbkdf2Blocks, pbkdf2Block_length]

theorem bytesToHexL_length (bs : List Nat) : (bytesToHexL bs).length = 2 * bs.length := by
  induction bs with
  | nil => rfl
  | cons b rest ih => simp [bytesToHexL, ih]; omega

theorem bytesToHex_length (bs : List Nat) : (bytesToHex bs).length = 2 * bs.length := by
  simp [bytesToHex, String.length, bytesToHexL_length]

theorem hexDigitChar_lower (n : Nat) : isLowerHexChar (hexDigitChar n) = true := by
  rcases Nat.lt_or_ge n 16 with h | h
  · unfold hexDigitChar
    interval_cases n <;> decide
  · unfold hexDigitChar
    rw [List.getD_eq_default]
    · decide
    · simpa [hexCharsL] using h

theorem bytesToHexL_lower (bs : List Nat) :
    (bytesToHexL bs).all isLowerHexChar = true := by
  induction bs with
  | nil => rfl
  | cons b rest ih => simp [bytesToHexL, hexDigitChar_lower, ih]

theorem bytesToHex_lower (bs : List Nat) : isLowerHexStr (bytesToHex bs) = true := by
  simpa [isLowerHexStr, bytesToHex, List.all_eq_true] using
    List.all_eq_true.mp (bytesToHexL_lower bs)

theorem freshSalt_length (entropy : Fin 16 → Nat) : (freshSalt entropy).length = 16 := by
  simp [freshSalt]

/-! ## Claim theorems: hashing -/

/-- Claim C5: the two-argument form of `hash_password` is deterministic:
with the same password and the same supplied salt, two invocations agree
(in the model the result does not depend on the entropy source, which a
supplied salt never consumes). -/
theorem hash_password_deterministic (password salt : String) (e1 e2 : Fin 16 → Nat) :
    hash_password password (some salt) e1 = hash_password password (some salt) e2 := rfl

/-- Claim C6: `hash_password` derives the key with PBKDF2 over SHA-256 at
100000 iterations and a 32-byte output; the returned hash is a 64-character
lowercase hex string, and the salt is a 32-character lowercase hex string
over 16 freshly drawn bytes when no salt is supplied. -/
theorem hash_password_shape (password : String) (entropy : Fin 16 → Nat) :
    hash_password password none entropy =
      some (bytesToHex (pbkdf2HmacSha256 (utf8Bytes password) (freshSalt entropy) 100000 32),
        bytesToHex (freshSalt entropy))
    ∧ (pbkdf2HmacSha256 (utf8Bytes password) (freshSalt entropy) 100000 32).length = 32
    ∧ (bytesToHex (pbkdf2HmacSha256 (utf8Bytes password) (freshSalt entropy)
        100000 32)).length = 64
    ∧ isLowerHexStr (bytesToHex (pbkdf2HmacSha256 (utf8Bytes password) (freshSalt entropy)
        100000 32)) = true
    ∧ (freshSalt entropy).length = 16
    ∧ (bytesToHex (freshSalt entropy)).length = 32
    ∧ isLowerHexStr (bytesToHex (freshSalt entropy)) = true := by
  refine ⟨rfl, pbkdf2_dk32_length _ _ _, ?_, bytesToHex_lower _, freshSalt_length _, ?_,
    bytesToHex_lower _⟩
  · rw [bytesToHex_length, pbkdf2_dk32_length]
  · rw [bytesToHex_length, freshSalt_length]

/-! ## Lemmas about template substitution -/

theorem splitOnList_ne_nil (s pat : List Char) : splitOnList s pat ≠ [] := by
  unfold splitOnList
  match pat with
  | [] => simp
  | p :: ps =>
    match s with
    | [] => simp
    | c :: rest =>
      by_cases hpre : (p :: ps).isPrefixOf (c :: rest)
      · simp [hpre]
      · simp only [hpre, if_false, Bool.false_eq_true]
        match splitOnList rest (p :: ps) with
        | [] => simp
        | chunk :: more => simp

theorem joinWithL_cons_head (rep : List Char) (c : Char) (chunk : List Char)
    (more : List (List Char)) :
    joinWithL rep ((c :: chunk) :: more) = c :: joinWithL rep (chunk :: more) := by
  match more with
  | [] => rfl
  | m :: ms => simp [joinWithL]

theorem replaceAll_eq_join_split (s pat rep : List Char) :
    replaceAll s pat rep = joinWithL rep (splitOnList s pat) := by
  induction s, pat using splitOnList.induct with
  | case1 s => simp [replaceAll, splitOnList, joinWithL]
  | case2 p ps => simp [replaceAll, splitOnList, joinWithL]
  | case3 p ps c rest hpre ih =>
    rw [replaceAll, splitOnList]
    simp only [hpre, if_true]
    obtain ⟨chunk, more, hsplit⟩ :=
      List.exists_cons_of_ne_nil (splitOnList_ne_nil ((c :: rest).drop (ps.length + 1)) (p :: ps))
    rw [ih, hsplit]
    simp [joinWithL]
  | case4 p ps c rest hpre hnil ih =>
    exact absurd hnil (splitOnList_ne_nil _ _)
  | case5 p ps c rest hpre chunk more hsplit ih =>
    rw [replaceAll, splitOnList]
    simp only [hpre, if_false, Bool.false_eq_true, hsplit]
    simp only [ih, hsplit, joinWithL_cons_head]

/-- Claim C7: rendering substitutes literally: processing the context
entries in order, every occurrence of each placeholder token is replaced
by that entry's value (splitting the text at the token's occurrences and
joining the chunks with the raw value, so values are inserted with no
escaping and text without the token — including placeholders for keys not
in the context — passes through verbatim). -/
theorem render_template_substitution (tpl : String) (context : List (String × String)) :
    render_template tpl context =
      context.foldl
        (fun content kv =>
          String.mk (joinWithL kv.2.data
            (splitOnList content.data (placeholderToken kv.1).data)))
        tpl := by
  unfold render_template
  simp only [replaceAll_eq_join_split]

/-! ## Claim theorems: logging and static assets -/

/-- Claim C8 (refuted by the code): `log_message` writes the formatted
line with no return value, but it contains no exception handler, so when
the append to `server.log` fails the error propagates out of the logging
call and aborts the handling of the request instead of being swallowed. -/
theorem log_message_propagates_failure (clientIp timestamp message err : String) :
    log_message clientIp timestamp message (fun _ => Except.error err)
      = Except.error err := rfl

theorem normalizeSegs_append_public (l : List String) :
    normalizeSegs (l ++ ["public"]) = normalizeSegs l ++ ["public"] := by
  simp [normalizeSegs, List.foldl_append]

theorem append_public_not_etc_passwd (l : List String) :
    ((l ++ ["public"]).isPrefixOf ["etc", "passwd"]) = false := by
  rcases l with _ | ⟨a, l⟩
  · decide
  · rcases l with _ | ⟨b, l⟩
    · simp [List.isPrefixOf, show (("public" : String) == "passwd") = false from by decide]
    · have hnil : ((l ++ ["public"]).isPrefixOf ([] : List String)) = false := by
        rcases l with _ | ⟨c, l⟩ <;> rfl
      simp [List.isPrefixOf, hnil]

/-- Claim C9: the static handler does not confine resolution to the public
directory: `/static//etc/passwd` starts with `/static/`, yet stripping the
first `/static/` leaves the absolute remainder `/etc/passwd`, which the
path join resolves outside `BASE_DIR/public`; when a regular file is at
that resolved path its bytes are served with status 200. -/
theorem static_handler_escapes_public (baseSegs : List String) (content : List Nat) :
    startsWithL "/static/" "/static//etc/passwd" = true
    ∧ resolveStatic baseSegs "/static//etc/passwd" = ["etc", "passwd"]
    ∧ underPublic baseSegs (resolveStatic baseSegs "/static//etc/passwd") = false
    ∧ serve_static (fun q => if q = ["etc", "passwd"] then some content else none)
        baseSegs "/static//etc/passwd"
      = StaticResult.ok "application/octet-stream; charset=utf-8" content := by
  have hres : resolveStatic baseSegs "/static//etc/passwd" = ["etc", "passwd"] := rfl
  refine ⟨by decide, hres, ?_, ?_⟩
  · rw [hres]
    unfold underPublic
    rw [normalizeSegs_append_public]
    exact append_public_not_etc_passwd _
  · unfold serve_static
    rw [hres]
    simp
    rfl
